import Mathlib

/-!
A verification development for the JavaScript source-to-source rewriter in
`src/rewriter/src/rewrite.rs`.  The Rust code is shallowly embedded: the
`JsChange` edit record, the AST visitor (`impl Visit for Rewriter`), the
splice pass and the sourcemap stream of `fn rewrite`, and the helper
functions `rewrite_url`, `json_escape_string` are translated into
executable Lean definitions.  Source text is modelled as `List Char`
(byte offsets coincide with character offsets on the ASCII inputs used in
the concrete theorems); machine integers are `Nat`.  Rust `panic!`
(direct slice indexing, `Option::unwrap`) is distinguished from the
recoverable `RewriterError::Oob` result in the `RunResult` type.  The
external collaborators (the oxc parser producing the AST, and the `url`
crate's `Url::join`) are inputs of the embedding: theorems quantify over
ASTs, and URL resolution is a function parameter `resolve`.
-/

namespace Scramjet

/-- Mirrors `enum JsChange` (rewrite.rs lines 26-41).
`generic s e text` is `GenericChange { span: Span::new(s, e), text }`;
`sourceTag t` is `SourceTag { tagstart: t }`;
`assignment name es ee rs re op` is
`Assignment { name, entirespan: Span::new(es, ee), rhsspan: Span::new(rs, re), op }`
with the operator kept as its `as_str()` source text. -/
inductive JsChange where
  | generic (s e : Nat) (text : String)
  | sourceTag (tagstart : Nat)
  | assignment (name : String) (es ee rs re : Nat) (op : String)
deriving DecidableEq

/-- The primary offset used by `JsChange::inner_cmp` (rewrite.rs lines 43-67):
`GenericChange` compares by `span.start`, `Assignment` by `entirespan.start`,
`SourceTag` by `tagstart`. -/
def JsChange.key : JsChange → Nat
  | .generic s _ _ => s
  | .sourceTag t => t
  | .assignment _ es _ _ _ _ => es

/-- Mirrors `pub struct Config` (rewrite.rs lines 88-104).  The Rust field
`prefix` is named `pfx` here because `prefix` is not usable as a Lean field
name. -/
structure Config where
  pfx : String
  wrapfn : String
  wrapthisfn : String
  importfn : String
  rewritefn : String
  setrealmfn : String
  metafn : String
  pushsourcemapfn : String
  encode : String → String
  capture_errors : Bool
  scramitize : Bool
  do_sourcemaps : Bool
  strict_rewrites : Bool

/-- The visitor state `struct Rewriter` (rewrite.rs lines 82-86) minus the
accumulated edit set, plus the external `Url::join` of the `url` crate,
modelled as the function `resolve : base → specifier → Option resolved`
(`none` models a `Result::Err`, which the code unwraps, i.e. panics on). -/
structure Ctx where
  config : Config
  base : String
  resolve : String → String → Option String

/-- Mirrors `const UNSAFE_GLOBALS: &[&str]` (rewrite.rs lines 433-444). -/
def unsafeGlobals : List String :=
  ["window", "self", "globalThis", "this", "parent", "top",
   "location", "document", "eval", "frames"]

/-- Mirrors `fn rewrite_url` (rewrite.rs lines 107-113):
`self.base.join(&url).unwrap()` panics when resolution fails (modelled as
`none`); otherwise the result is the double-quoted literal
`"<prefix><encode(resolved)>"`. -/
def rewriteUrl (C : Ctx) (url : String) : Option String :=
  match C.resolve C.base url with
  | none => none
  | some u => some ("\"" ++ C.config.pfx ++ C.config.encode u ++ "\"")

mutual
/-- The AST nodes whose visits `impl Visit for Rewriter` overrides, plus a
generic `other` node standing for every node kind the visitor does not
override (for which oxc's `walk` simply recurses into the children, in
source order).  Every constructor carries its source span `(s, e)` (byte
offsets, end exclusive) last.  `staticMember` additionally carries the
property name and the property's span `(ps, pe)`; `importDecl`,
`exportAllDecl` and `exportNamedDecl` carry the string-literal specifier
value and its span (quotes included, as in oxc). -/
inductive Node where
  | identRef (name : String) (s e : Nat)
  | thisExpr (s e : Nat)
  | debuggerStmt (s e : Nat)
  | callExpr (callee : Node) (args : Nodes) (optional : Bool) (s e : Nat)
  | newExpr (callee : Node) (args : Nodes) (s e : Nat)
  | staticMember (object : Node) (propName : String) (ps pe : Nat) (s e : Nat)
  | computedMember (object : Node) (propExpr : Node) (s e : Nat)
  | superExpr (s e : Nat)
  | metaProperty (metaName : String) (s e : Nat)
  | importDecl (specifier : String) (sps spe : Nat) (children : Nodes) (s e : Nat)
  | importExpr (children : Nodes) (s e : Nat)
  | exportAllDecl (specifier : String) (sps spe : Nat) (s e : Nat)
  | exportNamedDecl (source : Option (String × Nat × Nat)) (children : Nodes) (s e : Nat)
  | objectExpr (props : ObjProps) (s e : Nat)
  | functionBody (stmts : Nodes) (s e : Nat)
  | returnStmt (children : Nodes) (s e : Nat)
  | unaryExpr (op : String) (argument : Node) (s e : Nat)
  | forInStmt (left : Node) (right : Node) (body : Node) (s e : Nat)
  | forOfStmt (left : Node) (right : Node) (body : Node) (s e : Nat)
  | updateExpr (argument : Node) (s e : Nat)
  | assignmentExpr (left : AssignTarget) (op : String) (right : Node) (s e : Nat)
  | tryStmt (handlerParam : Option String) (handlerBodyStart : Nat) (children : Nodes) (s e : Nat)
  | other (children : Nodes) (s e : Nat)
deriving DecidableEq

/-- The assignment-target cases distinguished by `visit_assignment_expression`
(rewrite.rs lines 400-429): a bare identifier target, an array destructuring
target, and everything else. -/
inductive AssignTarget where
  | targetIdent (name : String) (s e : Nat)
  | arrayTarget (elems : Nodes) (s e : Nat)
  | otherTarget (node : Node)
deriving DecidableEq

/-- The object-literal property cases distinguished by
`visit_object_expression` (rewrite.rs lines 324-345).  For a shorthand
property oxc's key is an `IdentifierName` (never rewritten); concrete
instances model it as `Node.other .nil`. -/
inductive ObjProp where
  | property (shorthand : Bool) (key : Node) (value : Node)
  | spreadProp (argument : Node)
deriving DecidableEq

/-- A list of AST nodes (children in source order). -/
inductive Nodes where
  | nil
  | cons (head : Node) (tail : Nodes)
deriving DecidableEq

/-- A list of object-literal properties in source order. -/
inductive ObjProps where
  | nil
  | cons (head : ObjProp) (tail : ObjProps)
deriving DecidableEq
end

/-- `GetSpan::span().start` of a node. -/
def Node.spanStart : Node → Nat
  | .identRef _ s _ => s
  | .thisExpr s _ => s
  | .debuggerStmt s _ => s
  | .callExpr _ _ _ s _ => s
  | .newExpr _ _ s _ => s
  | .staticMember _ _ _ _ s _ => s
  | .computedMember _ _ s _ => s
  | .superExpr s _ => s
  | .metaProperty _ s _ => s
  | .importDecl _ _ _ _ s _ => s
  | .importExpr _ s _ => s
  | .exportAllDecl _ _ _ s _ => s
  | .exportNamedDecl _ _ s _ => s
  | .objectExpr _ s _ => s
  | .functionBody _ s _ => s
  | .returnStmt _ s _ => s
  | .unaryExpr _ _ s _ => s
  | .forInStmt _ _ _ s _ => s
  | .forOfStmt _ _ _ s _ => s
  | .updateExpr _ s _ => s
  | .assignmentExpr _ _ _ s _ => s
  | .tryStmt _ _ _ s _ => s
  | .other _ s _ => s

/-- `GetSpan::span().end` of a node. -/
def Node.spanEnd : Node → Nat
  | .identRef _ _ e => e
  | .thisExpr _ e => e
  | .debuggerStmt _ e => e
  | .callExpr _ _ _ _ e => e
  | .newExpr _ _ _ e => e
  | .staticMember _ _ _ _ _ e => e
  | .computedMember _ _ _ e => e
  | .superExpr _ e => e
  | .metaProperty _ _ e => e
  | .importDecl _ _ _ _ _ e => e
  | .importExpr _ _ e => e
  | .exportAllDecl _ _ _ _ e => e
  | .exportNamedDecl _ _ _ e => e
  | .objectExpr _ _ e => e
  | .functionBody _ _ e => e
  | .returnStmt _ _ e => e
  | .unaryExpr _ _ _ e => e
  | .forInStmt _ _ _ _ e => e
  | .forOfStmt _ _ _ _ e => e
  | .updateExpr _ _ e => e
  | .assignmentExpr _ _ _ _ e => e
  | .tryStmt _ _ _ _ e => e
  | .other _ _ e => e

/-- The test `if let Expression::Identifier(s) = &it.callee { s.name == "eval" }`
of `visit_call_expression` (rewrite.rs lines 236-238). -/
def isEvalIdent : Node → Bool
  | .identRef n _ _ => n == "eval"
  | _ => false

/-- The test `if let Expression::Identifier(_) = &s.object` of
`visit_member_expression` (rewrite.rs line 184). -/
def isIdentNode : Node → Bool
  | .identRef _ _ _ => true
  | _ => false

/-- The test `if let Expression::ThisExpression(_) = &s.object` of
`visit_member_expression` (rewrite.rs line 188). -/
def isThisNode : Node → Bool
  | .thisExpr _ _ => true
  | _ => false

/-- `matches!(s.object, Expression::MetaProperty(_))` (rewrite.rs line 194). -/
def isMetaNode : Node → Bool
  | .metaProperty _ _ _ => true
  | _ => false

/-- `matches!(s.object, Expression::Super(_))` (rewrite.rs line 195). -/
def isSuperNode : Node → Bool
  | .superExpr _ _ => true
  | _ => false

/-- Mirrors `fn walk_member_expression` of `impl Rewriter`
(rewrite.rs lines 124-139), the `new`-expression callee walk: descend
through member-expression objects to a leaf identifier and apply
`rewrite_ident` (rewrite.rs lines 115-122, note the extra outer
parentheses in its replacement text).  No other node kind is walked. -/
def walkMember (C : Ctx) : Node → List JsChange
  | .identRef n s e =>
    if unsafeGlobals.contains n then
      [.generic s e ("(" ++ C.config.wrapfn ++ "(" ++ n ++ "))")]
    else []
  | .staticMember obj _ _ _ _ _ => walkMember C obj
  | .computedMember obj _ _ _ => walkMember C obj
  | _ => []

/-- One iteration of the property scan loop of `visit_object_expression`
(rewrite.rs lines 325-342): an `ObjectProperty` whose value is an
identifier in `UNSAFE_GLOBALS` and which is shorthand yields the
long-form replacement; every other property yields nothing. -/
def shorthandHit (C : Ctx) : ObjProp → Option JsChange
  | .property sh _ (.identRef n vs ve) =>
    if unsafeGlobals.contains n && sh then
      some (.generic vs ve (n ++ ": (" ++ C.config.wrapfn ++ "(" ++ n ++ "))"))
    else none
  | _ => none

/-- The whole property scan loop of `visit_object_expression`: the first
hit stops the whole visit. -/
def findShorthand (C : Ctx) : ObjProps → Option JsChange
  | .nil => none
  | .cons p rest =>
    match shorthandHit C p with
    | some ch => some ch
    | none => findShorthand C rest

/-- Sequencing of two visit steps: both succeed (concatenating their emitted
edits in visit order) or the whole visit panics (`none`). -/
def oapp (a b : Option (List JsChange)) : Option (List JsChange) :=
  match a, b with
  | some x, some y => some (x ++ y)
  | _, _ => none

mutual
/-- The edit-emission of one visit of `impl Visit for Rewriter`
(rewrite.rs lines 142-430), as the list of `JsChange` values inserted into
`self.jschanges`, in insertion order.  `none` models a panic during the
visit (only `rewrite_url`'s `unwrap` can panic).  The release build is
modelled: `visit_try_statement` is gated by `#[cfg(feature = "debug")]`
in the source and is included here with its `capture_errors` guard. -/
def emitN (C : Ctx) : Node → Option (List JsChange)
  | .identRef name s e =>
    -- visit_identifier_reference, lines 143-160
    some (if unsafeGlobals.contains name then
      [.generic s e (C.config.wrapfn ++ "(" ++ name ++ ")")]
    else [])
  | .thisExpr s e =>
    -- visit_this_expression, lines 218-223
    some [.generic s e (C.config.wrapthisfn ++ "(this)")]
  | .debuggerStmt s e =>
    -- visit_debugger_statement, lines 225-231
    some [.generic s e ""]
  | .callExpr callee args opt s e =>
    -- visit_call_expression, lines 235-265
    if isEvalIdent callee && !opt then
      Option.map (fun a =>
        [JsChange.generic callee.spanStart (callee.spanEnd + 1)
           ("eval(" ++ C.config.rewritefn ++ "("),
         JsChange.generic e e ")"] ++ a) (emitL C args)
    else
      oapp (some (if C.config.scramitize then
          [JsChange.generic s s " $scramitize(", JsChange.generic e e ")"]
        else []))
        (oapp (emitN C callee) (emitL C args))
  | .newExpr callee args _ _ =>
    -- visit_new_expression, lines 163-166
    Option.map (fun a => walkMember C callee ++ a) (emitL C args)
  | .staticMember obj pname ps pe _ _ =>
    -- visit_member_expression, lines 167-217 (static case)
    if pname == "postMessage" then
      Option.map (fun o =>
        [JsChange.generic ps pe
           (C.config.setrealmfn ++ "(\x7b\x7d)." ++ pname)] ++ o) (emitN C obj)
    else if !C.config.strict_rewrites && !(unsafeGlobals.contains pname)
        && (isIdentNode obj || isThisNode obj) then
      some []
    else
      oapp (some (if C.config.scramitize && !isMetaNode obj && !isSuperNode obj then
          [JsChange.generic obj.spanStart obj.spanStart " $scramitize(",
           JsChange.generic obj.spanEnd obj.spanEnd ")"]
        else []))
        (emitN C obj)
  | .computedMember obj p _ _ =>
    -- visit_member_expression, computed case: no checks, generic walk
    oapp (emitN C obj) (emitN C p)
  | .superExpr _ _ => some []
  | .metaProperty m s e =>
    -- visit_meta_property, lines 391-398
    some (if m == "import" then
      [.generic s e (C.config.metafn ++ "(\"" ++ C.base ++ "\")")]
    else [])
  | .importDecl spec sps spe children _ _ =>
    -- visit_import_declaration, lines 267-275
    match rewriteUrl C spec with
    | none => none
    | some text =>
      Option.map (fun cs => [JsChange.generic sps spe text] ++ cs) (emitL C children)
  | .importExpr children s _ =>
    -- visit_import_expression, lines 276-282
    Option.map (fun cs =>
      [JsChange.generic s (s + 6)
         ("(" ++ C.config.importfn ++ "(\"" ++ C.base ++ "\"))")] ++ cs)
      (emitL C children)
  | .exportAllDecl spec sps spe _ _ =>
    -- visit_export_all_declaration, lines 284-291 (no walk)
    match rewriteUrl C spec with
    | none => none
    | some text => some [JsChange.generic sps spe text]
  | .exportNamedDecl src _ _ _ =>
    -- visit_export_named_declaration, lines 293-303 (never walks children)
    match src with
    | some (spec, sps, spe) =>
      match rewriteUrl C spec with
      | none => none
      | some text => some [JsChange.generic sps spe text]
    | none => some []
  | .objectExpr props _ _ =>
    -- visit_object_expression, lines 324-345
    match findShorthand C props with
    | some ch => some [ch]
    | none => emitProps C props
  | .functionBody stmts s _ =>
    -- visit_function_body, lines 347-355
    Option.map (fun cs =>
      (if C.config.do_sourcemaps then [JsChange.sourceTag s] else []) ++ cs)
      (emitL C stmts)
  | .returnStmt children _ _ =>
    -- visit_return_statement, lines 357-369: walk only
    emitL C children
  | .unaryExpr op a _ _ =>
    -- visit_unary_expression, lines 371-377
    if op == "typeof" then some [] else emitN C a
  | .forInStmt _ _ body _ _ =>
    -- visit_for_in_statement, lines 380-382: walk only the body
    emitN C body
  | .forOfStmt _ _ body _ _ =>
    -- visit_for_of_statement, lines 383-385
    emitN C body
  | .updateExpr _ _ _ =>
    -- visit_update_expression, lines 387-389: no walk at all
    some []
  | .assignmentExpr left op right s e =>
    -- visit_assignment_expression, lines 400-429
    match left with
    | .targetIdent n _ _ =>
      if ["location"].contains n then
        some [JsChange.assignment n s e right.spanStart right.spanEnd op]
      else emitN C right
    | .arrayTarget _ _ _ => some []
    | .otherTarget t => oapp (emitN C t) (emitN C right)
  | .tryStmt hp hbs children _ _ =>
    -- visit_try_statement, lines 305-322 (debug feature)
    Option.map (fun cs =>
      (if C.config.capture_errors then
        match hp with
        | some nm => [JsChange.generic (hbs + 1) (hbs + 1) ("$scramerr(" ++ nm ++ ");")]
        | none => []
      else []) ++ cs) (emitL C children)
  | .other children _ _ => emitL C children

/-- Visit a child list in source order. -/
def emitL (C : Ctx) : Nodes → Option (List JsChange)
  | .nil => some []
  | .cons x xs => oapp (emitN C x) (emitL C xs)

/-- The generic `walk_object_expression` over all properties (reached only
when the shorthand scan found nothing): walk each property's key and value. -/
def emitProps (C : Ctx) : ObjProps → Option (List JsChange)
  | .nil => some []
  | .cons (.property _ k v) rest =>
    oapp (oapp (emitN C k) (emitN C v)) (emitProps C rest)
  | .cons (.spreadProp a) rest =>
    oapp (emitN C a) (emitProps C rest)
end

/-- Insertion into the `indexset::BTreeSet<JsChange>` (rewrite.rs line 83),
whose `Ord` is `inner_cmp`, i.e. comparison of primary offsets only:
keep the list sorted by `key`; when an element with an equal key is already
present, `insert` keeps the existing element and drops the new one. -/
def insertChange (c : JsChange) : List JsChange → List JsChange
  | [] => [c]
  | x :: xs =>
    if c.key < x.key then c :: x :: xs
    else if c.key = x.key then x :: xs
    else x :: insertChange c xs

/-- The edit set built by inserting every emitted change in visit
(insertion) order. -/
def buildSet (l : List JsChange) : List JsChange :=
  l.foldl (fun acc c => insertChange c acc) []

/-- Mirrors one character step of `fn json_escape_string`
(rewrite.rs lines 576-591). -/
def jsonEscapeChar (c : Char) : List Char :=
  if c = '"' then ['\\', '"']
  else if c = '\\' then ['\\', '\\']
  else if c = '\x08' then ['\\', 'b']
  else if c = '\x0C' then ['\\', 'f']
  else if c = '\n' then ['\\', 'n']
  else if c = '\r' then ['\\', 'r']
  else if c = '\t' then ['\\', 't']
  else [c]

/-- Mirrors `fn json_escape_string`. -/
def jsonEscape (s : List Char) : List Char :=
  (s.map jsonEscapeChar).flatten

/-- The slice `src[a..b]` / `src.get(a..b)`: `none` exactly when Rust's
range check fails (start past end, or end past the length). -/
def sliceGet (src : List Char) (a b : Nat) : Option (List Char) :=
  if a ≤ b ∧ b ≤ src.length then some ((src.drop a).take (b - a)) else none

/-- Outcome of one `rewrite` invocation: a successful buffer, the
recoverable `Err(RewriterError::Oob)` produced by `js.get(..).ok_or(..)?`,
or a Rust panic (direct slicing `js[..]` out of bounds, or
`Url::join(..).unwrap()` on a failed resolution). -/
inductive RunResult where
  | ok (out : List Char)
  | errOob
  | panicked
deriving DecidableEq

/-- The sourcemap entry appended for a `GenericChange`
(rewrite.rs lines 506-517): `["<json-escaped original slice>",<start>,<start + text.len()>],`
where `start` is `span.start` (an offset into the *input*). -/
def smapEntry (spliced : List Char) (s : Nat) (text : String) : List Char :=
  "[\"".toList ++ jsonEscape spliced
    ++ ("\"," ++ toString s ++ "," ++ toString (s + text.length) ++ "],").toList

/-- The splice loop of `fn rewrite` (rewrite.rs lines 499-560), over the
edits in sorted order, with the running input cursor `offset`, the output
`buffer` and the sourcemap buffer `smap`.  Failure modes follow the code
exactly: the sourcemap slice `&js[start..end]` and the `Assignment` slices
`js[offset..start]`, `js[rhsspan.start..rhsspan.end]` and the tail
`js[offset..]` panic when out of bounds, while the `GenericChange` and
`SourceTag` buffer slices use `js.get(..).ok_or(Oob)?`. -/
def spliceLoop (C : Ctx) (src : List Char) (tag : String) :
    List JsChange → Nat → List Char → List Char → RunResult
  | [], offset, buf, smap =>
    if offset ≤ src.length then
      let buf := buf ++ src.drop offset
      if C.config.do_sourcemaps then
        .ok (smap ++ ("],\"" ++ tag ++ "\");\n").toList ++ buf)
      else .ok buf
    else .panicked
  | .generic s e text :: rest, offset, buf, smap =>
    if C.config.do_sourcemaps then
      match sliceGet src s e with
      | none => .panicked
      | some spliced =>
        match sliceGet src offset s with
        | none => .errOob
        | some chunk =>
          spliceLoop C src tag rest e (buf ++ chunk ++ text.toList)
            (smap ++ smapEntry spliced s text)
    else
      match sliceGet src offset s with
      | none => .errOob
      | some chunk =>
        spliceLoop C src tag rest e (buf ++ chunk ++ text.toList) smap
  | .assignment name es ee rs re op :: rest, offset, buf, smap =>
    match sliceGet src offset es with
    | none => .panicked
    | some chunk =>
      match sliceGet src rs re with
      | none => .panicked
      | some rhs =>
        let tmpl :=
          ("((t)=>$scramjet$tryset(" ++ name ++ ",\"" ++ op ++ "\",t)||("
            ++ name ++ op ++ "t))(").toList ++ rhs ++ ")".toList
        spliceLoop C src tag rest ee (buf ++ chunk ++ tmpl) smap
  | .sourceTag t :: rest, offset, buf, smap =>
    match sliceGet src offset t with
    | none => .errOob
    | some chunk =>
      let inject := ("/*scramtag " ++ toString t ++ " " ++ tag ++ "*/").toList
      spliceLoop C src tag rest t (buf ++ chunk ++ inject) smap

/-- The driver `fn rewrite` (rewrite.rs lines 446-574) downstream of the
parse: visit the program (a panic during the visit propagates), build the
ordered deduplicated edit set, and splice.  When `do_sourcemaps` is set the
emission is the sourcemap prelude `PUSHSOURCEMAPFN([` + entries + trailer,
followed by the rewritten buffer. -/
def rewriteProg (C : Ctx) (prog : Nodes) (src : List Char) (tag : String) : RunResult :=
  match emitL C prog with
  | none => .panicked
  | some changes =>
    let smap0 :=
      if C.config.do_sourcemaps then (C.config.pushsourcemapfn ++ "([").toList else []
    spliceLoop C src tag (buildSet changes) 0 [] smap0

mutual
/-- Syntactic containment of a rewrite-triggering construct, following the
trigger list of the no-op claim: an identifier reference whose name is in
`UNSAFE_GLOBALS`, a `this` expression, a `debugger` statement, an import
declaration or import expression, an `import.meta` meta-property, a static
`.postMessage` member access, or an assignment whose bare-identifier target
is an unsafe global (which includes `location`).  A direct `eval(…)` call
is covered because its callee is the identifier reference `eval`, an
unsafe global.  The flag `xp` additionally counts export declarations that
carry a source specifier (`export … from "…"`) as triggers; `xp := false`
is the claim's literal list, `xp := true` the amended one. -/
def hasTrigN (xp : Bool) : Node → Bool
  | .identRef name _ _ => unsafeGlobals.contains name
  | .thisExpr _ _ => true
  | .debuggerStmt _ _ => true
  | .callExpr callee args _ _ _ => hasTrigN xp callee || hasTrigL xp args
  | .newExpr callee args _ _ => hasTrigN xp callee || hasTrigL xp args
  | .staticMember obj pname _ _ _ _ => pname == "postMessage" || hasTrigN xp obj
  | .computedMember obj p _ _ => hasTrigN xp obj || hasTrigN xp p
  | .superExpr _ _ => false
  | .metaProperty m _ _ => m == "import"
  | .importDecl _ _ _ _ _ _ => true
  | .importExpr _ _ _ => true
  | .exportAllDecl _ _ _ _ _ => xp
  | .exportNamedDecl src children _ _ => (xp && src.isSome) || hasTrigL xp children
  | .objectExpr props _ _ => hasTrigProps xp props
  | .functionBody stmts _ _ => hasTrigL xp stmts
  | .returnStmt children _ _ => hasTrigL xp children
  | .unaryExpr _ a _ _ => hasTrigN xp a
  | .forInStmt l r b _ _ => hasTrigN xp l || hasTrigN xp r || hasTrigN xp b
  | .forOfStmt l r b _ _ => hasTrigN xp l || hasTrigN xp r || hasTrigN xp b
  | .updateExpr a _ _ => hasTrigN xp a
  | .assignmentExpr left _ right _ _ => hasTrigT xp left || hasTrigN xp right
  | .tryStmt _ _ children _ _ => hasTrigL xp children
  | .other children _ _ => hasTrigL xp children

/-- Trigger containment for an assignment target. -/
def hasTrigT (xp : Bool) : AssignTarget → Bool
  | .targetIdent n _ _ => unsafeGlobals.contains n
  | .arrayTarget elems _ _ => hasTrigL xp elems
  | .otherTarget t => hasTrigN xp t

/-- Trigger containment for a node list. -/
def hasTrigL (xp : Bool) : Nodes → Bool
  | .nil => false
  | .cons x xs => hasTrigN xp x || hasTrigL xp xs

/-- Trigger containment for one object-literal property. -/
def hasTrigProp (xp : Bool) : ObjProp → Bool
  | .property _ k v => hasTrigN xp k || hasTrigN xp v
  | .spreadProp a => hasTrigN xp a

/-- Trigger containment for an object-property list. -/
def hasTrigProps (xp : Bool) : ObjProps → Bool
  | .nil => false
  | .cons p rest => hasTrigProp xp p || hasTrigProps xp rest
end

/-- The concrete configuration of the spec's scenario table: prefix `/x/`,
identity `encode`, shim names spelled in capitals, all flags false. -/
def cfgBase : Config :=
  { pfx := "/x/", wrapfn := "WRAPFN", wrapthisfn := "WRAPTHISFN",
    importfn := "IMPORTFN", rewritefn := "REWRITEFN", setrealmfn := "SETREALMFN",
    metafn := "METAFN", pushsourcemapfn := "PUSHSOURCEMAPFN",
    encode := fun s => s, capture_errors := false, scramitize := false,
    do_sourcemaps := false, strict_rewrites := false }

/-- Concrete context with base `https://h/` and a resolver that resolves the
one specifier `./a.js` used in the concrete theorems (any other specifier
fails to resolve). -/
def ctxStd : Ctx :=
  { config := cfgBase, base := "https://h/",
    resolve := fun b s =>
      if b = "https://h/" ∧ s = "./a.js" then some "https://h/a.js" else none }

/-- `ctxStd` with `scramitize` on. -/
def ctxScram : Ctx :=
  { ctxStd with config := { cfgBase with scramitize := true } }

/-- `ctxStd` with `do_sourcemaps` on. -/
def ctxMaps : Ctx :=
  { ctxStd with config := { cfgBase with do_sourcemaps := true } }

/-- AST of the program `eval(x)` as oxc parses it: a call expression at
span `[0,7)` whose callee is the identifier reference `eval` at `[0,4)`
and whose single argument is the identifier reference `x` at `[5,6)`. -/
def progEval : Nodes :=
  .cons (.callExpr (.identRef "eval" 0 4)
    (.cons (.identRef "x" 5 6) .nil) false 0 7) .nil

/-- The source text `eval(x)`. -/
def srcEval : List Char := "eval(x)".toList

/-- AST of the program `window.foo`: a static member expression at span
`[0,10)` with object identifier `window` at `[0,6)` and property name
`foo` at `[7,10)`. -/
def progMember : Nodes :=
  .cons (.staticMember (.identRef "window" 0 6) "foo" 7 10 0 10) .nil

/-- The source text `window.foo`. -/
def srcMember : List Char := "window.foo".toList

/-- AST of the program `window(x)`: a non-optional call at span `[0,9)`
with callee identifier `window` at `[0,6)` and argument `x` at `[7,8)`. -/
def progWinCall : Nodes :=
  .cons (.callExpr (.identRef "window" 0 6)
    (.cons (.identRef "x" 7 8) .nil) false 0 9) .nil

/-- The source text `window(x)`. -/
def srcWinCall : List Char := "window(x)".toList

/-- AST of the program `location = "u"`: an assignment expression at span
`[0,14)` whose target is the bare identifier `location` at `[0,8)`, with
operator `=` and right-hand side the string literal `"u"` at `[11,14)`
(a node kind the visitor does not override). -/
def progAssign : Nodes :=
  .cons (.assignmentExpr (.targetIdent "location" 0 8) "="
    (.other .nil 11 14) 0 14) .nil

/-- The source text `location = "u"`. -/
def srcAssign : List Char := "location = \"u\"".toList

/-- AST of the program `export * from "./a.js"`: an export-all declaration
at span `[0,22)` whose string-literal source specifier has value `./a.js`
and span `[14,22)` (quotes included). -/
def progExportAll : Nodes := .cons (.exportAllDecl "./a.js" 14 22 0 22) .nil

/-- The source text `export * from "./a.js"`. -/
def srcExportAll : List Char := "export * from \"./a.js\"".toList

/-- AST of the program `export const x = window;`: an export-named
declaration with no source specifier, whose declaration subtree contains
the identifier reference `window` at `[17,23)`. -/
def progExportNamed : Nodes :=
  .cons (.exportNamedDecl none
    (.cons (.other (.cons (.identRef "window" 17 23) .nil) 7 24) .nil) 0 24) .nil

/-- The source text `export const x = window;`. -/
def srcExportNamed : List Char := "export const x = window;".toList

/-- Claim C2 (counterexample): for the input `eval(x)` the visitor does
*not* emit an insertion of `(REWRITEFN(` at the position immediately after
the `eval` token (which would be the zero-width edit at offset 4): it
emits a `Replace` whose span `[0,5)` covers the `eval` token *and the byte
after it*, with text `eval(REWRITEFN(`.  Moreover, splicing the two
insertions the claim describes would produce `eval(REWRITEFN((x))` — an
output different from the `eval(REWRITEFN(x))` the claim itself asserts
(and with unbalanced parentheses). -/
theorem C2_insertion_counterexample :
    emitL ctxStd progEval =
      some [JsChange.generic 0 5 "eval(REWRITEFN(", JsChange.generic 7 7 ")"]
    ∧ emitL ctxStd progEval ≠
      some [JsChange.generic 4 4 "(REWRITEFN(", JsChange.generic 7 7 ")"]
    ∧ spliceLoop ctxStd srcEval "t"
        [JsChange.generic 4 4 "(REWRITEFN(", JsChange.generic 7 7 ")"] 0 [] []
        = .ok "eval(REWRITEFN((x))".toList
    ∧ "eval(REWRITEFN((x))".toList ≠ "eval(REWRITEFN(x))".toList := by
  refine ⟨by decide, by decide, by decide, by decide⟩

/-- Claim C2 (amended): for every call expression whose callee is the bare
identifier `eval` and which is not optional, the visitor emits exactly two
edits — a `Replace` covering the span from the start of the `eval` token
through one byte past its end (`[cs, ce+1)`) with text `eval(REWRITEFN(`,
and a zero-width insertion of `)` at the call's end position — followed by
the edits of the arguments only (the callee is never descended into); for
input `eval(x)` the output reads `eval(REWRITEFN(x))` and its callee token
`eval` is still a bare identifier immediately followed by `(`. -/
theorem C2_direct_eval_edits :
    (∀ (C : Ctx) (args : Nodes) (cs ce s e : Nat),
      emitN C (.callExpr (.identRef "eval" cs ce) args false s e) =
        Option.map (fun a =>
          [JsChange.generic cs (ce + 1) ("eval(" ++ C.config.rewritefn ++ "("),
           JsChange.generic e e ")"] ++ a) (emitL C args))
    ∧ rewriteProg ctxStd progEval srcEval "t" = .ok "eval(REWRITEFN(x))".toList
    ∧ "eval(REWRITEFN(x))".toList.take 5 = "eval(".toList := by
  refine ⟨?_, by decide, by decide⟩
  intro C args cs ce s e
  simp [emitN, isEvalIdent, Node.spanStart, Node.spanEnd]

/-- Claim C3 (counterexample): with prefix `/x/`, identity encode, base
`https://h/` and all flags false, rewriting `window.foo` leaves the input
unchanged — the output is `window.foo`, not `(WRAPFN(window)).foo`: the
safe-access shortcut of `visit_member_expression` returns before the
object identifier is ever visited. -/
theorem C3_counterexample :
    rewriteProg ctxStd progMember srcMember "t" = .ok srcMember
    ∧ srcMember ≠ "(WRAPFN(window)).foo".toList := by
  refine ⟨by decide, by decide⟩

/-- Claim C3 (amended): with `strict_rewrites` false, a static member
expression whose property name is neither `postMessage` nor in
`UNSAFE_GLOBALS` and whose object is a bare identifier emits no edit at
all (descent stops entirely), so `window.foo` rewrites to itself
unchanged. -/
theorem C3_member_shortcut :
    (∀ (C : Ctx) (oname pname : String) (os oe ps pe s e : Nat),
      C.config.strict_rewrites = false →
      pname ≠ "postMessage" →
      unsafeGlobals.contains pname = false →
      emitN C (.staticMember (.identRef oname os oe) pname ps pe s e) = some [])
    ∧ rewriteProg ctxStd progMember srcMember "t" = .ok srcMember := by
  refine ⟨?_, by decide⟩
  intro C oname pname os oe ps pe s e hs hp hc
  simp only [List.contains, List.elem_eq_mem, decide_eq_false_iff_not] at hc
  simp [emitN, hs, hp, hc, isIdentNode]

/-- Claim C3 witness: the shortcut applied to the member expression of
`window.foo` under the scenario configuration. -/
theorem C3_witness :
    emitN ctxStd (.staticMember (.identRef "window" 0 6) "foo" 7 10 0 10) = some [] :=
  C3_member_shortcut.1 ctxStd "window" "foo" 0 6 7 10 0 10 rfl (by decide) (by decide)

/-- Claim C4 (counterexample): an edit set whose `Assignment` edit overlaps
a preceding `Replace` makes the splice pass *panic* (the code slices
`js[offset..start]` directly at rewrite.rs line 532) instead of returning
the recoverable out-of-bounds error that the `Replace`/`SourceTag` paths
return through `js.get(..).ok_or(Oob)?`. -/
theorem C4_counterexample :
    spliceLoop ctxStd "abcde".toList "t"
      (buildSet [JsChange.generic 0 5 "A", JsChange.assignment "loc" 2 3 0 1 "="])
      0 [] [] = .panicked
    ∧ RunResult.panicked ≠ RunResult.errOob := by
  refine ⟨by decide, by decide⟩

/-- Claim C4 (amended): during the splice pass an out-of-bounds buffer
slice `source[offset..start]` for a `Replace` edit yields the recoverable
out-of-bounds error — both with `do_sourcemaps` off and with it on
(provided the sourcemap slice `source[span.start..span.end]`, taken first,
is in bounds); likewise for a `SourceTag` edit.  But an out-of-bounds
slice for an `Assignment` edit, an out-of-bounds final tail slice
`source[offset..]`, and — with `do_sourcemaps` on — an out-of-bounds
sourcemap slice for a `Replace` (direct indexing `&js[start..end]` at
rewrite.rs line 507), cause a panic instead of an error result. -/
theorem C4_splice_failure_modes :
    (∀ (C : Ctx) (src : List Char) (tag text : String) (rest : List JsChange)
        (s e o : Nat) (b m : List Char),
      C.config.do_sourcemaps = false →
      sliceGet src o s = none →
      spliceLoop C src tag (.generic s e text :: rest) o b m = .errOob)
    ∧ (∀ (C : Ctx) (src : List Char) (tag text : String) (rest : List JsChange)
        (s e o : Nat) (b m spliced : List Char),
      C.config.do_sourcemaps = true →
      sliceGet src s e = some spliced →
      sliceGet src o s = none →
      spliceLoop C src tag (.generic s e text :: rest) o b m = .errOob)
    ∧ (∀ (C : Ctx) (src : List Char) (tag text : String) (rest : List JsChange)
        (s e o : Nat) (b m : List Char),
      C.config.do_sourcemaps = true →
      sliceGet src s e = none →
      spliceLoop C src tag (.generic s e text :: rest) o b m = .panicked)
    ∧ (∀ (C : Ctx) (src : List Char) (tag : String) (rest : List JsChange)
        (t o : Nat) (b m : List Char),
      sliceGet src o t = none →
      spliceLoop C src tag (.sourceTag t :: rest) o b m = .errOob)
    ∧ (∀ (C : Ctx) (src : List Char) (tag name op : String) (rest : List JsChange)
        (es ee rs re o : Nat) (b m : List Char),
      sliceGet src o es = none →
      spliceLoop C src tag (.assignment name es ee rs re op :: rest) o b m = .panicked)
    ∧ (∀ (C : Ctx) (src : List Char) (tag : String) (o : Nat) (b m : List Char),
      src.length < o →
      spliceLoop C src tag [] o b m = .panicked) := by
  refine ⟨?_, ?_, ?_, ?_, ?_, ?_⟩
  · intro C src tag text rest s e o b m hd hs
    simp [spliceLoop, hd, hs]
  · intro C src tag text rest s e o b m spliced hd hm hs
    simp [spliceLoop, hd, hm, hs]
  · intro C src tag text rest s e o b m hd hm
    simp [spliceLoop, hd, hm]
  · intro C src tag rest t o b m hs
    simp [spliceLoop, hs]
  · intro C src tag name op rest es ee rs re o b m hs
    simp [spliceLoop, hs]
  · intro C src tag o b m h
    simp [spliceLoop, Nat.not_le.mpr h]

/-- Claim C4 witness: concrete instances of all six splice failure modes —
an out-of-bounds Replace buffer slice with sourcemaps off and on (error),
an out-of-bounds Replace sourcemap slice (panic), an out-of-bounds
SourceTag slice (error), and an out-of-bounds Assignment slice and tail
slice (panic). -/
theorem C4_witness :
    spliceLoop ctxStd "ab".toList "t" [JsChange.generic 5 6 "x"] 3 [] [] = .errOob
    ∧ spliceLoop ctxMaps "ab".toList "t" [JsChange.generic 0 1 "x"] 3 [] [] = .errOob
    ∧ spliceLoop ctxMaps "ab".toList "t" [JsChange.generic 5 6 "x"] 3 [] [] = .panicked
    ∧ spliceLoop ctxStd "ab".toList "t" [JsChange.sourceTag 5] 3 [] [] = .errOob
    ∧ spliceLoop ctxStd "ab".toList "t" [JsChange.assignment "n" 5 6 0 1 "="] 3 [] []
        = .panicked
    ∧ spliceLoop ctxStd "ab".toList "t" [] 3 [] [] = .panicked :=
  ⟨C4_splice_failure_modes.1 ctxStd "ab".toList "t" "x" [] 5 6 3 [] [] rfl (by decide),
   C4_splice_failure_modes.2.1 ctxMaps "ab".toList "t" "x" [] 0 1 3 [] [] "a".toList
     rfl (by decide) (by decide),
   C4_splice_failure_modes.2.2.1 ctxMaps "ab".toList "t" "x" [] 5 6 3 [] [] rfl
     (by decide),
   C4_splice_failure_modes.2.2.2.1 ctxStd "ab".toList "t" [] 5 3 [] [] (by decide),
   C4_splice_failure_modes.2.2.2.2.1 ctxStd "ab".toList "t" "n" "=" [] 5 6 0 1 3 [] []
     (by decide),
   C4_splice_failure_modes.2.2.2.2.2 ctxStd "ab".toList "t" 3 [] [] (by decide)⟩

/-- Claim C5 (counterexample): with `scramitize` set, visiting `window(x)`
emits three changes, two of which — the zero-width ` $scramitize(` wrap at
the call start and the `WRAPFN(window)` replacement of the callee — are
*distinct* edits with equal primary offset 0.  The set insertion keeps
only the first, so the `WRAPFN(window)` edit is lost and the output is
` $scramitize(window(x))` with the unsafe global left unwrapped.  This
refutes the claim that the visitor never emits two conflicting edits with
equal primary offsets and that no intended edit is lost. -/
theorem C5_counterexample :
    emitL ctxScram progWinCall =
      some [JsChange.generic 0 0 " $scramitize(", JsChange.generic 9 9 ")",
            JsChange.generic 0 6 "WRAPFN(window)"]
    ∧ (JsChange.generic 0 6 "WRAPFN(window)").key
        = (JsChange.generic 0 0 " $scramitize(").key
    ∧ JsChange.generic 0 6 "WRAPFN(window)" ≠ JsChange.generic 0 0 " $scramitize("
    ∧ buildSet [JsChange.generic 0 0 " $scramitize(", JsChange.generic 9 9 ")",
                JsChange.generic 0 6 "WRAPFN(window)"]
        = [JsChange.generic 0 0 " $scramitize(", JsChange.generic 9 9 ")"]
    ∧ rewriteProg ctxScram progWinCall srcWinCall "t"
        = .ok " $scramitize(window(x))".toList := by
  refine ⟨by decide, by decide, by decide, by decide, by decide⟩

/-- Claim C5 (amended): inserting an edit whose primary offset equals the
primary offset of an edit already in the (sorted) set leaves the set
unchanged — equal-offset edits are collapsed to one, the first inserted
winning; but the visitor *can* emit distinct edits with equal primary
offsets (see the counterexample), in which case the later edit is
silently dropped. -/
theorem C5_dedup :
    ∀ (c : JsChange) (l : List JsChange),
      l.Pairwise (fun a b => a.key < b.key) →
      (∃ x ∈ l, x.key = c.key) →
      insertChange c l = l := by
  intro c l
  induction l with
  | nil => intro _ h; exact absurd h (by simp)
  | cons x xs ih =>
    intro hp hex
    rcases List.pairwise_cons.mp hp with ⟨hlt, hxs⟩
    rcases hex with ⟨y, hy, hkey⟩
    rcases List.mem_cons.mp hy with rfl | hmem
    · simp [insertChange, hkey]
    · have hxy : x.key < c.key := hkey ▸ hlt y hmem
      have h1 : ¬ c.key < x.key := by omega
      have h2 : ¬ c.key = x.key := by omega
      simp only [insertChange, if_neg h1, if_neg h2]
      rw [ih hxs ⟨y, hmem, hkey⟩]

/-- Claim C5 witness: the conflicting `WRAPFN(window)` edit of the
counterexample is dropped when inserted into the set already holding the
` $scramitize(` edit at the same offset. -/
theorem C5_witness :
    insertChange (JsChange.generic 0 6 "WRAPFN(window)")
      [JsChange.generic 0 0 " $scramitize(", JsChange.generic 9 9 ")"]
      = [JsChange.generic 0 0 " $scramitize(", JsChange.generic 9 9 ")"] :=
  C5_dedup (JsChange.generic 0 6 "WRAPFN(window)")
    [JsChange.generic 0 0 " $scramitize(", JsChange.generic 9 9 ")"]
    (by decide) ⟨JsChange.generic 0 0 " $scramitize(", by decide, by decide⟩

/-- Claim C6 (counterexample): with all flags off, the input
`location = "u"` produces
`((t)=>$scramjet$tryset(location,"=",t)||(location=t))("u")` — there is
*no* space between `location` and `=` inside the fallback `(NAME OP t)`
part, so the spec's claimed output
`((t)=>$scramjet$tryset(location,"=",t)||(location =t))("u")` is wrong. -/
theorem C6_counterexample :
    rewriteProg ctxStd progAssign srcAssign "t" =
      .ok "((t)=>$scramjet$tryset(location,\"=\",t)||(location=t))(\"u\")".toList
    ∧ "((t)=>$scramjet$tryset(location,\"=\",t)||(location=t))(\"u\")".toList ≠
      "((t)=>$scramjet$tryset(location,\"=\",t)||(location =t))(\"u\")".toList := by
  refine ⟨by decide, by decide⟩

/-- Claim C6 (amended): an `Assignment` edit with identifier `NAME`,
operator `OP` and right-hand-side source bytes `RHS` expands during
splicing to exactly `((t)=>$scramjet$tryset(NAME,"OP",t)||(NAMEOPt))(RHS)`
— with no whitespace around `OP` in the fallback — and in particular
`location = "u"` produces
`((t)=>$scramjet$tryset(location,"=",t)||(location=t))("u")`. -/
theorem C6_assignment_template :
    (∀ (C : Ctx) (src : List Char) (tag name op : String) (es ee rs re : Nat)
        (chunk rhs : List Char),
      C.config.do_sourcemaps = false →
      sliceGet src 0 es = some chunk →
      sliceGet src rs re = some rhs →
      ee ≤ src.length →
      spliceLoop C src tag [.assignment name es ee rs re op] 0 [] [] =
        .ok (chunk ++ ("((t)=>$scramjet$tryset(" ++ name ++ ",\"" ++ op
          ++ "\",t)||(" ++ name ++ op ++ "t))(").toList ++ rhs ++ ")".toList
          ++ src.drop ee))
    ∧ rewriteProg ctxStd progAssign srcAssign "t" =
        .ok "((t)=>$scramjet$tryset(location,\"=\",t)||(location=t))(\"u\")".toList := by
  refine ⟨?_, by decide⟩
  intro C src tag name op es ee rs re chunk rhs hd h1 h2 h3
  simp [spliceLoop, h1, h2, h3, hd]

/-- Claim C6 witness: the template instantiated for `location = "u"`. -/
theorem C6_witness :
    spliceLoop ctxStd srcAssign "t" [JsChange.assignment "location" 0 14 11 14 "="]
      0 [] [] =
      .ok (([] : List Char) ++ ("((t)=>$scramjet$tryset(" ++ "location" ++ ",\"" ++ "="
        ++ "\",t)||(" ++ "location" ++ "=" ++ "t))(").toList ++ "\"u\"".toList
        ++ ")".toList ++ srcAssign.drop 14) :=
  C6_assignment_template.1 ctxStd srcAssign "t" "location" "=" 0 14 11 14 []
    "\"u\"".toList rfl (by decide) (by decide) (by decide)

/-- Claim C7 (counterexample): with `do_sourcemaps` on, splicing the two
`Replace` edits `[0,1)→XX` and `[1,2)→Y` over source `ab` records the
entry `["b",1,2]` for the second edit.  In the output stream the text `Y`
occupies `[2,3)` (after the two-byte `XX`), so the recorded integers are
*input* offsets (`span.start`, `span.start + len(text)`), not output
offsets — under the claim the entry would have to read `["b",2,3]`. -/
theorem C7_counterexample :
    spliceLoop ctxMaps "ab".toList "t"
      [JsChange.generic 0 1 "XX", JsChange.generic 1 2 "Y"] 0 []
      ("PUSHSOURCEMAPFN([").toList
      = .ok "PUSHSOURCEMAPFN([[\"a\",0,2],[\"b\",1,2],],\"t\");\nXXY".toList
    ∧ "PUSHSOURCEMAPFN([[\"a\",0,2],[\"b\",1,2],],\"t\");\nXXY".toList ≠
      "PUSHSOURCEMAPFN([[\"a\",0,2],[\"b\",2,3],],\"t\");\nXXY".toList := by
  refine ⟨by decide, by decide⟩

/-- Claim C7 (amended): with `do_sourcemaps` set, each `Replace` edit
appends the sourcemap entry
`["<json-escaped original slice>",<span.start>,<span.start + len(text)>],`
— both recorded integers being byte offsets counted in the *input*
(original) stream, not in the output stream. -/
theorem C7_sourcemap_offsets :
    (∀ (C : Ctx) (src : List Char) (tag text : String) (rest : List JsChange)
        (s e o : Nat) (buf smap spliced chunk : List Char),
      C.config.do_sourcemaps = true →
      sliceGet src s e = some spliced →
      sliceGet src o s = some chunk →
      spliceLoop C src tag (.generic s e text :: rest) o buf smap =
        spliceLoop C src tag rest e (buf ++ chunk ++ text.toList)
          (smap ++ smapEntry spliced s text))
    ∧ (∀ (spliced : List Char) (s : Nat) (text : String),
      smapEntry spliced s text =
        "[\"".toList ++ jsonEscape spliced
          ++ ("\"," ++ toString s ++ "," ++ toString (s + text.length) ++ "],").toList)
    ∧ spliceLoop ctxMaps "ab".toList "t"
        [JsChange.generic 0 1 "XX", JsChange.generic 1 2 "Y"] 0 []
        ("PUSHSOURCEMAPFN([").toList
        = .ok "PUSHSOURCEMAPFN([[\"a\",0,2],[\"b\",1,2],],\"t\");\nXXY".toList := by
  refine ⟨?_, fun _ _ _ => rfl, by decide⟩
  intro C src tag text rest s e o buf smap spliced chunk hd h1 h2
  simp [spliceLoop, hd, h1, h2]

/-- Claim C7 witness: one splice step of the counterexample's second edit,
recording the input offsets 1 and 2. -/
theorem C7_witness :
    spliceLoop ctxMaps "ab".toList "t" [JsChange.generic 1 2 "Y"] 1 "XX".toList
      ("PUSHSOURCEMAPFN([[\"a\",0,2],").toList =
      spliceLoop ctxMaps "ab".toList "t" [] 2 ("XX".toList ++ [] ++ "Y".toList)
        (("PUSHSOURCEMAPFN([[\"a\",0,2],").toList ++ smapEntry "b".toList 1 "Y") :=
  C7_sourcemap_offsets.1 ctxMaps "ab".toList "t" "Y" [] 1 2 1 "XX".toList
    ("PUSHSOURCEMAPFN([[\"a\",0,2],").toList "b".toList [] rfl (by decide) (by decide)

/-- Claim C8 (confirmed): if a module specifier fails URL resolution
against the base, `rewrite_url` panics (`Url::join(..).unwrap()`), and so
the whole rewrite invocation of a program containing such a specifier
panics rather than returning a result; if the specifier resolves to `r`,
the emitted replacement is exactly the double-quoted literal
`"<prefix><encode(r)>"`. -/
theorem C8_url_rewrite :
    (∀ (C : Ctx) (s : String) (a b c d : Nat) (src : List Char) (tag : String),
      C.resolve C.base s = none →
      rewriteUrl C s = none ∧
      rewriteProg C (.cons (.exportAllDecl s a b c d) .nil) src tag = .panicked)
    ∧ (∀ (C : Ctx) (s r : String) (a b c d : Nat),
      C.resolve C.base s = some r →
      rewriteUrl C s = some ("\"" ++ C.config.pfx ++ C.config.encode r ++ "\"") ∧
      emitN C (.exportAllDecl s a b c d) =
        some [JsChange.generic a b ("\"" ++ C.config.pfx ++ C.config.encode r ++ "\"")]) := by
  constructor
  · intro C s a b c d src tag h
    refine ⟨by simp [rewriteUrl, h], ?_⟩
    simp [rewriteProg, emitL, emitN, rewriteUrl, h, oapp]
  · intro C s r a b c d h
    exact ⟨by simp [rewriteUrl, h], by simp [emitN, rewriteUrl, h]⟩

/-- Claim C8 witness: under `ctxStd` the specifier `bad` fails to resolve
(panicking the rewrite of `export * from "bad"`) and `./a.js` resolves,
emitting the quoted literal built from prefix and encoded URL. -/
theorem C8_witness :
    rewriteUrl ctxStd "bad" = none
    ∧ rewriteProg ctxStd (.cons (.exportAllDecl "bad" 0 1 0 1) .nil) "x".toList "t"
        = .panicked
    ∧ rewriteUrl ctxStd "./a.js"
        = some ("\"" ++ ctxStd.config.pfx ++ ctxStd.config.encode "https://h/a.js" ++ "\"") :=
  ⟨(C8_url_rewrite.1 ctxStd "bad" 0 1 0 1 "x".toList "t" (by decide)).1,
   (C8_url_rewrite.1 ctxStd "bad" 0 1 0 1 "x".toList "t" (by decide)).2,
   (C8_url_rewrite.2 ctxStd "./a.js" "https://h/a.js" 0 1 0 1 (by decide)).1⟩

/-- A node with no trigger cannot be the bare identifier `eval`
(`eval` is in `UNSAFE_GLOBALS`). -/
theorem isEvalIdent_false (xp : Bool) (c : Node) (h : hasTrigN xp c = false) :
    isEvalIdent c = false := by
  cases c
  case identRef n s e =>
    simp only [hasTrigN] at h
    simp only [isEvalIdent, beq_eq_false_iff_ne, ne_eq]
    intro he
    subst he
    exact absurd h (by decide)
  all_goals rfl

/-- A false `List.contains` check gives non-membership. -/
theorem not_mem_of_contains_false {n : String} {l : List String}
    (h : l.contains n = false) : n ∉ l := by
  intro hm
  simp [List.contains, List.elem_eq_mem, hm] at h

/-- A name outside `UNSAFE_GLOBALS` is in particular not `location`. -/
theorem ne_location_of_contains_false (n : String)
    (h : unsafeGlobals.contains n = false) : ¬ n = "location" := by
  intro he
  subst he
  exact absurd h (by decide)

/-- The `new`-expression callee walk emits nothing on a trigger-free
callee chain. -/
theorem walkMember_nil (C : Ctx) (xp : Bool) :
    ∀ (c : Node), hasTrigN xp c = false → walkMember C c = []
  | .identRef n s e, h => by
    simp only [hasTrigN] at h
    simp [walkMember, not_mem_of_contains_false h]
  | .staticMember obj p ps pe s e, h => by
    simp only [hasTrigN, Bool.or_eq_false_iff] at h
    simp only [walkMember]
    exact walkMember_nil C xp obj h.2
  | .computedMember obj p s e, h => by
    simp only [hasTrigN, Bool.or_eq_false_iff] at h
    simp only [walkMember]
    exact walkMember_nil C xp obj h.1
  | .thisExpr _ _, _ => rfl
  | .debuggerStmt _ _, _ => rfl
  | .callExpr _ _ _ _ _, _ => rfl
  | .newExpr _ _ _ _, _ => rfl
  | .superExpr _ _, _ => rfl
  | .metaProperty _ _ _, _ => rfl
  | .importDecl _ _ _ _ _ _, _ => rfl
  | .importExpr _ _ _, _ => rfl
  | .exportAllDecl _ _ _ _ _, _ => rfl
  | .exportNamedDecl _ _ _ _, _ => rfl
  | .objectExpr _ _ _, _ => rfl
  | .functionBody _ _ _, _ => rfl
  | .returnStmt _ _ _, _ => rfl
  | .unaryExpr _ _ _ _, _ => rfl
  | .forInStmt _ _ _ _ _, _ => rfl
  | .forOfStmt _ _ _ _ _, _ => rfl
  | .updateExpr _ _ _, _ => rfl
  | .assignmentExpr _ _ _ _ _, _ => rfl
  | .tryStmt _ _ _ _ _, _ => rfl
  | .other _ _ _, _ => rfl

/-- A trigger-free object property is not an unsafe shorthand hit. -/
theorem shorthandHit_none (C : Ctx) (xp : Bool) (p : ObjProp)
    (h : hasTrigProp xp p = false) : shorthandHit C p = none := by
  cases p with
  | property sh k v =>
    cases v
    case identRef n vs ve =>
      simp only [hasTrigProp, hasTrigN, Bool.or_eq_false_iff] at h
      simp [shorthandHit, not_mem_of_contains_false h.2]
    all_goals rfl
  | spreadProp a => rfl

/-- The shorthand scan finds nothing in a trigger-free property list. -/
theorem findShorthand_none (C : Ctx) (xp : Bool) :
    ∀ (ps : ObjProps), hasTrigProps xp ps = false → findShorthand C ps = none
  | .nil, _ => rfl
  | .cons p rest, h => by
    simp only [hasTrigProps, Bool.or_eq_false_iff] at h
    simp [findShorthand, shorthandHit_none C xp p h.1,
      findShorthand_none C xp rest h.2]

mutual
/-- With `scramitize`, `do_sourcemaps` and `capture_errors` all false, the
visit of a node containing no amended trigger emits no edit. -/
theorem emitN_nil (C : Ctx) (h1 : C.config.scramitize = false)
    (h2 : C.config.do_sourcemaps = false) (h3 : C.config.capture_errors = false) :
    ∀ (n : Node), hasTrigN true n = false → emitN C n = some []
  | .identRef name s e, h => by
    simp only [hasTrigN] at h
    simp [emitN, not_mem_of_contains_false h]
  | .thisExpr _ _, h => by simp [hasTrigN] at h
  | .debuggerStmt _ _, h => by simp [hasTrigN] at h
  | .callExpr callee args opt s e, h => by
    simp only [hasTrigN, Bool.or_eq_false_iff] at h
    have hc := emitN_nil C h1 h2 h3 callee h.1
    have ha := emitL_nil C h1 h2 h3 args h.2
    have he : isEvalIdent callee = false := isEvalIdent_false true callee h.1
    simp [emitN, he, h1, hc, ha, oapp]
  | .newExpr callee args s e, h => by
    simp only [hasTrigN, Bool.or_eq_false_iff] at h
    have hw := walkMember_nil C true callee h.1
    have ha := emitL_nil C h1 h2 h3 args h.2
    simp [emitN, hw, ha]
  | .staticMember obj pname ps pe s e, h => by
    simp only [hasTrigN, Bool.or_eq_false_iff] at h
    have ho := emitN_nil C h1 h2 h3 obj h.2
    simp only [emitN]
    rw [if_neg (by simp [h.1])]
    split
    · rfl
    · simp [h1, ho, oapp]
  | .computedMember obj p s e, h => by
    simp only [hasTrigN, Bool.or_eq_false_iff] at h
    have ho := emitN_nil C h1 h2 h3 obj h.1
    have hp := emitN_nil C h1 h2 h3 p h.2
    simp [emitN, ho, hp, oapp]
  | .superExpr _ _, _ => rfl
  | .metaProperty m s e, h => by
    simp only [hasTrigN] at h
    simp [emitN, h]
  | .importDecl _ _ _ _ _ _, h => by simp [hasTrigN] at h
  | .importExpr _ _ _, h => by simp [hasTrigN] at h
  | .exportAllDecl _ _ _ _ _, h => by simp [hasTrigN] at h
  | .exportNamedDecl src children s e, h => by
    cases src with
    | none => rfl
    | some v => simp [hasTrigN] at h
  | .objectExpr props s e, h => by
    simp only [hasTrigN] at h
    have hf := findShorthand_none C true props h
    have hps := emitProps_nil C h1 h2 h3 props h
    simp [emitN, hf, hps]
  | .functionBody stmts s e, h => by
    simp only [hasTrigN] at h
    have hs := emitL_nil C h1 h2 h3 stmts h
    simp [emitN, h2, hs]
  | .returnStmt children s e, h => by
    simp only [hasTrigN] at h
    simp only [emitN]
    exact emitL_nil C h1 h2 h3 children h
  | .unaryExpr op a s e, h => by
    simp only [hasTrigN] at h
    have ha := emitN_nil C h1 h2 h3 a h
    simp only [emitN]
    split
    · rfl
    · exact ha
  | .forInStmt l r b s e, h => by
    simp only [hasTrigN, Bool.or_eq_false_iff] at h
    simp only [emitN]
    exact emitN_nil C h1 h2 h3 b h.2
  | .forOfStmt l r b s e, h => by
    simp only [hasTrigN, Bool.or_eq_false_iff] at h
    simp only [emitN]
    exact emitN_nil C h1 h2 h3 b h.2
  | .updateExpr _ _ _, _ => rfl
  | .assignmentExpr (.targetIdent n ns ne) op right s e, h => by
    simp only [hasTrigN, hasTrigT, Bool.or_eq_false_iff] at h
    have hr := emitN_nil C h1 h2 h3 right h.2
    have hloc := ne_location_of_contains_false n h.1
    simp [emitN, hloc, hr]
  | .assignmentExpr (.arrayTarget el as ae) op right s e, _ => rfl
  | .assignmentExpr (.otherTarget t) op right s e, h => by
    simp only [hasTrigN, hasTrigT, Bool.or_eq_false_iff] at h
    have ht := emitN_nil C h1 h2 h3 t h.1
    have hr := emitN_nil C h1 h2 h3 right h.2
    simp [emitN, ht, hr, oapp]
  | .tryStmt hp hbs children s e, h => by
    simp only [hasTrigN] at h
    have hc := emitL_nil C h1 h2 h3 children h
    simp [emitN, h3, hc]
  | .other children s e, h => by
    simp only [hasTrigN] at h
    simp only [emitN]
    exact emitL_nil C h1 h2 h3 children h

/-- Trigger-free node lists emit no edit. -/
theorem emitL_nil (C : Ctx) (h1 : C.config.scramitize = false)
    (h2 : C.config.do_sourcemaps = false) (h3 : C.config.capture_errors = false) :
    ∀ (l : Nodes), hasTrigL true l = false → emitL C l = some []
  | .nil, _ => rfl
  | .cons x xs, h => by
    simp only [hasTrigL, Bool.or_eq_false_iff] at h
    have hx := emitN_nil C h1 h2 h3 x h.1
    have hxs := emitL_nil C h1 h2 h3 xs h.2
    simp [emitL, hx, hxs, oapp]

/-- Trigger-free property lists emit no edit under the generic walk. -/
theorem emitProps_nil (C : Ctx) (h1 : C.config.scramitize = false)
    (h2 : C.config.do_sourcemaps = false) (h3 : C.config.capture_errors = false) :
    ∀ (ps : ObjProps), hasTrigProps true ps = false → emitProps C ps = some []
  | .nil, _ => rfl
  | .cons (.property sh k v) rest, h => by
    simp only [hasTrigProps, hasTrigProp, Bool.or_eq_false_iff] at h
    have hk := emitN_nil C h1 h2 h3 k h.1.1
    have hv := emitN_nil C h1 h2 h3 v h.1.2
    have hrest := emitProps_nil C h1 h2 h3 rest h.2
    simp [emitProps, hk, hv, hrest, oapp]
  | .cons (.spreadProp a) rest, h => by
    simp only [hasTrigProps, hasTrigProp, Bool.or_eq_false_iff] at h
    have ha := emitN_nil C h1 h2 h3 a h.1
    have hrest := emitProps_nil C h1 h2 h3 rest h.2
    simp [emitProps, ha, hrest, oapp]
end

/-- Claim C9 (counterexample): the program `export * from "./a.js"`
contains none of the claimed triggering constructs (`hasTrigL false`, the
claim's literal trigger list, is false on it) and all three flags are
false, yet the output `export * from "/x/https://h/a.js"` differs from
the input: export declarations with a source specifier are rewritten too
but are missing from the claim's inert list. -/
theorem C9_counterexample :
    hasTrigL false progExportAll = false
    ∧ ctxStd.config.scramitize = false
    ∧ ctxStd.config.do_sourcemaps = false
    ∧ ctxStd.config.capture_errors = false
    ∧ rewriteProg ctxStd progExportAll srcExportAll "t"
        = .ok "export * from \"/x/https://h/a.js\"".toList
    ∧ "export * from \"/x/https://h/a.js\"".toList ≠ srcExportAll := by
  refine ⟨by decide, rfl, rfl, rfl, by decide, by decide⟩

/-- Claim C9 (amended): for every program containing none of the
triggering constructs — the claim's list *plus* export declarations that
carry a source specifier (`export … from "…"` and `export * from "…"`) —
and with `scramitize`, `do_sourcemaps` and `capture_errors` all false,
the output of `rewrite` is byte-identical to the input. -/
theorem C9_inert_noop (C : Ctx) (h1 : C.config.scramitize = false)
    (h2 : C.config.do_sourcemaps = false) (h3 : C.config.capture_errors = false)
    (prog : Nodes) (h : hasTrigL true prog = false)
    (src : List Char) (tag : String) :
    rewriteProg C prog src tag = .ok src := by
  have he := emitL_nil C h1 h2 h3 prog h
  simp [rewriteProg, he, buildSet, spliceLoop, h2]

/-- Claim C9 witness: the inert program `x` rewrites to itself. -/
theorem C9_witness :
    rewriteProg ctxStd (.cons (.identRef "x" 0 1) .nil) "x".toList "t"
      = .ok "x".toList :=
  C9_inert_noop ctxStd rfl rfl rfl (.cons (.identRef "x" 0 1) .nil)
    (by decide) "x".toList "t"

/-- Claim C10 (confirmed): `visit_export_named_declaration` never walks
the declaration's children, so an export-named declaration *without* a
source specifier emits no edit at all, whatever its subtree contains; in
particular `export const x = window;` (whose subtree holds the unsafe
global `window`) rewrites to itself byte-identically. -/
theorem C10_export_named_no_source :
    (∀ (C : Ctx) (children : Nodes) (s e : Nat),
      emitN C (.exportNamedDecl none children s e) = some [])
    ∧ rewriteProg ctxStd progExportNamed srcExportNamed "t" = .ok srcExportNamed := by
  exact ⟨fun C children s e => rfl, by decide⟩
